import Mathlib

/-!
Verification of the KD (knowledge-distillation) extension pack for a
seq2seq translation trainer, against its natural-language specification.

The development shallowly embeds the relevant parts of the sources:

* `src/fairseq/criterions/kd_label_smoothed_cross_entropy.py`
  (label-smoothed NLL, the KD token-selection strategies, the FIFO
  history queues, the representation-distillation epoch gating);
* `src/fairseq/criterions/Dynamic_KD.py` (entropy-weighted KD helper);
* `src/custom/__init__.py` (architecture presets);
* `src/fairseq/tasks/kd_translation.py` (task-level configuration).

Tensors are embedded as lists over `ℚ` (exact arithmetic) or `ℝ` (for
the claims about `log`/`exp`/softmax); opaque tensor-library reductions
(`F.mse_loss`, `F.kl_div`, …) are inputs.  Python exceptions are
modelled with `Except PyErr`.
-/

/-- Python runtime errors relevant to the embedded control flow. -/
inductive PyErr where
  | typeError
  | nameError
deriving DecidableEq

/-! ## Common tensor-op helpers -/

/-- Descending sort, used to model `tensor.topk(k, largest=True)`:
`topk` returns the `k` largest entries of a 1-D tensor in descending
order. -/
def sortDesc (xs : List ℚ) : List ℚ :=
  xs.insertionSort (· ≥ ·)

/-- Model of `xs.topk(k, largest=True)[0][-1]`: the `k`-th largest element of
`xs` (with default `0` out of range; every use below has
`1 ≤ k ≤ xs.length`). -/
def topkLast (xs : List ℚ) (k : ℕ) : ℚ :=
  (sortDesc xs).getD (k - 1) 0

/-- Model of `math.ceil(n * kd_rate)` for a token/queue-entry count `n`
(lines 357-363, 386-392, 422-428 of
`kd_label_smoothed_cross_entropy.py`). -/
def kdTokenCount (n : ℕ) (rate : ℚ) : ℕ :=
  (⌈(n : ℚ) * rate⌉).toNat

/-- Model of `kd_loss.masked_fill_(pad_mask, 0)` on a flattened per-token
tensor. -/
def maskFillZero (pad : List Bool) (kd : List ℚ) : List ℚ :=
  (pad.zip kd).map (fun bv => if bv.1 then 0 else bv.2)

/-! ## `label_smoothed_nll_loss` (lines 99-116) -/

/-- Model of `label_smoothed_nll_loss` on a flattened batch, in the
`reduce=False` form the criterion uses.  Each row of `lprobs` is the
log-probability vector of one token, `target` the gold indices.  Per
token: `nll_loss = -lprobs.gather(target)`, `smooth_loss = -lprobs.sum`;
padding positions (`target == ignore_index`) are zeroed via
`masked_fill_`; `eps_i = epsilon / (lprobs.size(-1) - 1)`; the per-token
loss is `(1 - epsilon - eps_i) * nll_loss + eps_i * smooth_loss`.
Returns `(loss, nll_loss)` as per-token lists. -/
def label_smoothed_nll_loss (lprobs : List (List ℚ)) (target : List ℕ)
    (epsilon : ℚ) (ignore_index : Option ℕ) : List ℚ × List ℚ :=
  let V : ℕ := (lprobs.headD []).length
  let eps_i : ℚ := epsilon / ((V : ℚ) - 1)
  let masked : List (ℚ × ℚ) := (lprobs.zip target).map (fun rt =>
    let nll : ℚ := -(rt.1.getD rt.2 0)
    let smooth : ℚ := -(rt.1.sum)
    match ignore_index with
    | some pad => if rt.2 = pad then (0, 0) else (nll, smooth)
    | none => (nll, smooth))
  (masked.map (fun ns => (1 - epsilon - eps_i) * ns.1 + eps_i * ns.2),
   masked.map Prod.fst)

/-! ## FIFO history queues (lines 198-217) -/

/-- Model of `push_to_FIFO_queue` (lines 198-206): when the incoming size plus
the current queue size reaches `kd_queue_size`, drop the first
`incoming.length` entries (`self.queue = self.queue[tensor_sz:]`, the
oldest ones), then append the incoming values
(`torch.cat((self.queue, tensor))`). -/
def push_to_FIFO_queue (kd_queue_size : ℕ) (queue incoming : List ℚ) :
    List ℚ :=
  (if kd_queue_size ≤ incoming.length + queue.length
    then queue.drop incoming.length else queue) ++ incoming

/-- Model of `push_to_lang_FIFO_queue` (lines 209-217): the same eviction rule on
the queue of one language id; the other queues are untouched. -/
def push_to_lang_FIFO_queue (kd_queue_size : ℕ) (Q : ℤ → List ℚ)
    (id : ℤ) (tensor : List ℚ) : ℤ → List ℚ :=
  fun j => if j = id then push_to_FIFO_queue kd_queue_size (Q j) tensor
    else Q j

lemma length_push_le (K : ℕ) (q t : List ℚ) (hq : q.length ≤ K)
    (ht : t.length ≤ K) : (push_to_FIFO_queue K q t).length ≤ K := by
  unfold push_to_FIFO_queue
  by_cases h : K ≤ t.length + q.length
  · simp only [if_pos h, List.length_append, List.length_drop]
    omega
  · simp only [if_neg h, List.length_append]
    omega

lemma length_foldl_push_le (K : ℕ) (pushes : List (List ℚ)) :
    ∀ q0 : List ℚ, q0.length ≤ K → (∀ t ∈ pushes, t.length ≤ K) →
      (pushes.foldl (push_to_FIFO_queue K) q0).length ≤ K := by
  induction pushes with
  | nil => intro q0 h _; simpa using h
  | cons t ts ih =>
      intro q0 h hp
      simp only [List.foldl_cons]
      exact ih _ (length_push_le K q0 t h (hp t (by simp)))
        (fun u hu => hp u (by simp [hu]))

/-! ## Construction of `beta` (line 164) -/

/-- Line 164 of `kd_label_smoothed_cross_entropy.py`:
`self.beta = 1 if adaptive_smoothing is not None else adaptive_smoothing`.
`none` models Python `None` (the configuration field left unset). -/
def betaInit (adaptive_smoothing : Option ℚ) : Option ℚ :=
  if adaptive_smoothing.isSome then some 1 else adaptive_smoothing

/-! ## Teacher-artifact control flow of `compute_loss` (lines 294-341) -/

/-- Outcome marker for the embedded `compute_loss` prefix: either the
golden-only fallback of lines 338-339 (`loss = golden_loss`) or the KD
strategy dispatch from line 341 onward (elaborated by the strategy
definitions in this file). -/
inductive LossOutcome where
  | goldenOnly (loss : ℚ)
  | kdPath
deriving DecidableEq

/-- The teacher-artifact control flow of `compute_loss` (lines
294-341).  Line 306 (`teacher_logits = teacher_output[0]`) runs BEFORE
the `if teacher_output is None:` fallback of line 338, so an absent
`teacher_output` raises a `TypeError` at line 306.  When
`teacher_lprobs` is absent, the local `nll_loss_teacher` is never
assigned (lines 322-331) and line 334 (`nll_loss_teacher.view(-1)`)
raises a `NameError`.  The golden-only fallback of lines 338-339 is
kept in place, textually after those two points of failure. -/
def computeLossTeacherGate (teacher_output : Option (List (List ℚ)))
    (teacher_lprobs : Option (List (List ℚ))) (lprobs : List (List ℚ))
    (target : List ℕ) (eps : ℚ) (padding_idx : ℕ) :
    Except PyErr LossOutcome :=
  if teacher_output.isNone then .error .typeError
  else
    let golden :=
      (label_smoothed_nll_loss lprobs target eps (some padding_idx)).1
    if teacher_lprobs.isNone then .error .nameError
    else if teacher_output.isNone then .ok (.goldenOnly golden.sum)
    else .ok .kdPath

/-! # Claims -/

/-- C4 (code_bug evaluation): the criterion constructor sets `beta = 1`
exactly when the `adaptive_smoothing` field IS given — discarding the
given value (here `5/2 ≠ 1`) — and leaves `beta = None` when the field
is unset, the opposite of the claim (and of the configuration's evident
intent; a `None` beta later crashes the adaptive-weighting path at line
353). -/
theorem C4_beta_init_eval :
    betaInit (some (5/2 : ℚ)) = some 1 ∧ (1 : ℚ) < 5/2 ∧
    betaInit none = none := by
  refine ⟨rfl, by norm_num, rfl⟩

/-- C5 (code_bug evaluation): on a batch carrying no `teacher_output`
(and no `teacher_lprobs`), `compute_loss` raises a `TypeError` at line
306 instead of reaching the golden-only fallback of lines 338-339; with
`teacher_output` present but `teacher_lprobs` absent it raises a
`NameError` at line 334.  The fallback is unreachable. -/
theorem C5_teacher_absent_eval :
    computeLossTeacherGate none none [[-1, -2]] [0] 0 5 =
      .error .typeError ∧
    computeLossTeacherGate (some [[-1, -2]]) none [[-1, -2]] [0] 0 5 =
      .error .nameError := by
  exact ⟨rfl, rfl⟩

/-- C3 (counterexample): pushing a single 3-entry tensor into an empty
queue with `kd_queue_size = 2` leaves 3 entries in the queue — the
claimed bound `kd_queue_size` fails for pushes larger than the
capacity, because eviction drops only `tensor_sz` old entries before
appending `tensor_sz` new ones. -/
theorem C3_counterexample :
    ¬ ((push_to_FIFO_queue 2 [] [1, 2, 3]).length ≤ 2) := by
  norm_num [push_to_FIFO_queue]

/-- C3 (amended): for every sequence of pushes EACH OF SIZE AT MOST
`kd_queue_size`, starting from a queue within capacity, the queue holds
at most `kd_queue_size` entries after the pushes; and every push
removes only the oldest entries: its result is `(queue ++ incoming)`
with at most the old queue's prefix dropped. -/
theorem C3_fifo_bounded_oldest_evicted (K : ℕ) (pushes : List (List ℚ))
    (q0 : List ℚ) (hq0 : q0.length ≤ K)
    (hp : ∀ t ∈ pushes, t.length ≤ K) :
    (pushes.foldl (push_to_FIFO_queue K) q0).length ≤ K ∧
    ∀ q t : List ℚ, ∃ k ≤ q.length,
      push_to_FIFO_queue K q t = (q ++ t).drop k := by
  refine ⟨length_foldl_push_le K pushes q0 hq0 hp, ?_⟩
  intro q t
  by_cases h : K ≤ t.length + q.length
  · refine ⟨min t.length q.length, min_le_right _ _, ?_⟩
    rw [push_to_FIFO_queue, if_pos h, List.drop_append_eq_append_drop]
    rcases le_total t.length q.length with hle | hle
    · rw [min_eq_left hle, Nat.sub_eq_zero_of_le hle, List.drop_zero]
    · rw [min_eq_right hle, List.drop_length, List.nil_append,
        List.drop_eq_nil_of_le hle, List.nil_append, Nat.sub_self,
        List.drop_zero]
  · exact ⟨0, Nat.zero_le _, by
      rw [push_to_FIFO_queue, if_neg h, List.drop_zero]⟩

/-- C3 witness: the amended theorem applied to two concrete pushes of
size 2 with capacity 3. -/
theorem C3_fifo_bounded_witness :
    ([] : List ℚ).length ≤ 3 ∧
    (∀ t ∈ [([1, 2] : List ℚ), [3, 4]], t.length ≤ 3) ∧
    (([([1, 2] : List ℚ), [3, 4]]).foldl (push_to_FIFO_queue 3)
      []).length ≤ 3 :=
  ⟨by simp, by simp, (C3_fifo_bounded_oldest_evicted 3 [[1, 2], [3, 4]]
    [] (by simp) (by simp)).1⟩

/-! ## `batch_level` token selection (lines 356-376) -/

/-- The `batch_level` selection gate (lines 357-363):
`nll_loss.topk(math.ceil(nll_loss.size(0) * self.kd_rate), largest=True)[0][-1]`
— the value at rank `ceil(token_count · kd_rate)` counting from the
largest student NLL. -/
def batchLevelGate (nll : List ℚ) (kd_rate : ℚ) : ℚ :=
  topkLast nll (kdTokenCount nll.length kd_rate)

/-- The `batch_level` KD-loss accumulation (lines 364-373):
`KD_mask = nll_loss < loss_gate`; the pad-masked per-token kd values are
kept where `~KD_mask` holds (NLL not below the gate) and summed into
`extra['kd_loss']`. -/
def batchLevelKdSum (nll kd : List ℚ) (pad : List Bool) (kd_rate : ℚ) :
    ℚ :=
  let gate := batchLevelGate nll kd_rate
  ((((nll.zip (maskFillZero pad kd))).filter
    (fun p => !decide (p.1 < gate))).map Prod.snd).sum

/-- The sum the claim asserts instead: kd values of only the tokens
whose student NLL is STRICTLY BELOW the gate. -/
def batchLevelKdSum_claimed (nll kd : List ℚ) (kd_rate : ℚ) : ℚ :=
  let gate := batchLevelGate nll kd_rate
  (((nll.zip kd).filter (fun p => decide (p.1 < gate))).map Prod.snd).sum

/-! Helper facts about descending sorts, for the rank/gate analysis. -/

lemma sortDesc_sorted_gt (xs : List ℚ) (h : xs.Nodup) :
    List.Sorted (· > ·) (sortDesc xs) := by
  have h1 : List.Sorted (· ≥ ·) (sortDesc xs) :=
    List.sorted_insertionSort _ xs
  have h2 : (sortDesc xs).Nodup :=
    ((List.perm_insertionSort (· ≥ ·) xs).symm).nodup h
  exact (h1.and h2).imp (fun hab => lt_of_le_of_ne hab.1 (Ne.symm hab.2))

lemma countP_lt_getElem_sorted :
    ∀ (s : List ℚ), List.Sorted (· > ·) s → ∀ (k : ℕ) (hk : k < s.length),
      s.countP (fun y => decide (s[k] < y)) = k := by
  intro s
  induction s with
  | nil => intro _ k hk; simp at hk
  | cons a t ih =>
    intro hs k hk
    rcases List.sorted_cons.mp hs with ⟨ha, ht⟩
    cases k with
    | zero =>
      have h0 : t.countP (fun y => decide (a < y)) = 0 := by
        refine List.countP_eq_zero.mpr ?_
        intro y hy
        simp only [decide_eq_true_eq]
        exact not_lt.mpr (ha y hy).le
      simp [List.countP_cons, h0]
    | succ k =>
      have hk' : k < t.length := by simpa using hk
      have hgt : t[k] < a := ha _ (t.getElem_mem hk')
      simp [List.countP_cons, ih ht k hk', hgt]

lemma countP_le_getElem_sorted :
    ∀ (s : List ℚ), List.Sorted (· > ·) s → ∀ (k : ℕ) (hk : k < s.length),
      s.countP (fun y => decide (s[k] ≤ y)) = k + 1 := by
  intro s
  induction s with
  | nil => intro _ k hk; simp at hk
  | cons a t ih =>
    intro hs k hk
    rcases List.sorted_cons.mp hs with ⟨ha, ht⟩
    cases k with
    | zero =>
      have h0 : t.countP (fun y => decide (a ≤ y)) = 0 := by
        refine List.countP_eq_zero.mpr ?_
        intro y hy
        simp only [decide_eq_true_eq]
        exact not_le.mpr (ha y hy)
      simp [List.countP_cons, h0]
    | succ k =>
      have hk' : k < t.length := by simpa using hk
      have hle : t[k] ≤ a := (ha _ (t.getElem_mem hk')).le
      simp [List.countP_cons, ih ht k hk', hle]

lemma getElem_le_getElem_sorted (s : List ℚ)
    (hs : List.Sorted (· > ·) s) (i j : ℕ) (hi : i < s.length)
    (hj : j < s.length) (hij : i ≤ j) : s[j] ≤ s[i] := by
  rcases eq_or_lt_of_le hij with h | h
  · subst h; exact le_rfl
  · have := List.Sorted.rel_get_of_lt hs
      (a := ⟨i, hi⟩) (b := ⟨j, hj⟩) (by exact h)
    simpa using this.le

lemma ge_gate_iff_rank_lt (xs : List ℚ) (hnd : xs.Nodup) (k : ℕ)
    (hk1 : 1 ≤ k) (hk : k ≤ xs.length) (x : ℚ) (hx : x ∈ xs) :
    topkLast xs k ≤ x ↔ xs.countP (fun y => decide (x < y)) < k := by
  have hperm : (sortDesc xs).Perm xs := List.perm_insertionSort _ xs
  have hsort := sortDesc_sorted_gt xs hnd
  have hlen : (sortDesc xs).length = xs.length := hperm.length_eq
  have hk' : k - 1 < (sortDesc xs).length := by omega
  have hgate : topkLast xs k = (sortDesc xs)[k-1] :=
    List.getD_eq_getElem _ _ hk'
  have hxs : x ∈ sortDesc xs := hperm.mem_iff.mpr hx
  obtain ⟨j, hj, hxj⟩ := List.getElem_of_mem hxs
  subst hxj
  rw [hgate, ← hperm.countP_eq,
    countP_lt_getElem_sorted (sortDesc xs) hsort j hj]
  constructor
  · intro hge
    by_contra hjk
    push_neg at hjk
    have hlt := List.Sorted.rel_get_of_lt hsort
      (a := ⟨k - 1, hk'⟩) (b := ⟨j, hj⟩) (by simp; omega)
    simp only [List.get_eq_getElem] at hlt
    exact absurd hge (not_le.mpr hlt)
  · intro hjk
    exact getElem_le_getElem_sorted (sortDesc xs) hsort j (k-1) hj hk'
      (by omega)

lemma countP_ge_gate (xs : List ℚ) (hnd : xs.Nodup) (k : ℕ)
    (hk1 : 1 ≤ k) (hk : k ≤ xs.length) :
    xs.countP (fun y => decide (topkLast xs k ≤ y)) = k := by
  have hperm : (sortDesc xs).Perm xs := List.perm_insertionSort _ xs
  have hsort := sortDesc_sorted_gt xs hnd
  have hlen : (sortDesc xs).length = xs.length := hperm.length_eq
  have hk' : k - 1 < (sortDesc xs).length := by omega
  have hgate : topkLast xs k = (sortDesc xs)[k-1] :=
    List.getD_eq_getElem _ _ hk'
  rw [hgate, ← hperm.countP_eq,
    countP_le_getElem_sorted (sortDesc xs) hsort (k-1) hk']
  omega

lemma countP_lt_gate (xs : List ℚ) (hnd : xs.Nodup) (k : ℕ)
    (hk1 : 1 ≤ k) (hk : k ≤ xs.length) :
    xs.countP (fun y => decide (y < topkLast xs k)) = xs.length - k := by
  have h1 := countP_ge_gate xs hnd k hk1 hk
  have h2 := List.length_eq_countP_add_countP
    (fun y => decide (topkLast xs k ≤ y)) xs
  have h3 : xs.countP
      (fun a => decide ¬(decide (topkLast xs k ≤ a) = true)) =
      xs.countP (fun y => decide (y < topkLast xs k)) := by
    refine List.countP_congr ?_
    intro a _
    by_cases hc : topkLast xs k ≤ a
    · simp [hc, not_lt.mpr hc]
    · simp [hc, not_le.mp hc]
  omega

lemma maskFillZero_all_false :
    ∀ (kd : List ℚ) (n : ℕ), kd.length = n →
      maskFillZero (List.replicate n false) kd = kd := by
  intro kd
  induction kd with
  | nil => intro n _; simp [maskFillZero]
  | cons a l ih =>
    intro n h
    cases n with
    | zero => simp at h
    | succ m =>
      have ht := ih m (by simpa using h)
      simp only [maskFillZero, List.replicate_succ, List.zip_cons_cons,
        List.map_cons, Bool.false_eq_true, if_false]
      simp only [maskFillZero] at ht
      rw [ht]

lemma kdTokenCount_ten_half : kdTokenCount 10 (1/2) = 5 := by
  have h5 : ⌈((10 : ℕ) : ℚ) * (1/2)⌉ = 5 := by norm_num
  rw [kdTokenCount, h5]
  rfl

def nll10 : List ℚ := [1, 2, 3, 4, 5, 6, 7, 8, 9, 10]

def kd10 : List ℚ := [1, 2, 3, 4, 5, 6, 7, 8, 9, 10]

/-- C1 (counterexample): on the 10 distinct NLL values 1..10 with
`kd_rate = 1/2` and kd values 1..10, the gate is 6 (5th largest) and the
code's summed kd_loss is `6+7+8+9+10 = 40` — the five HIGHEST-NLL
tokens — whereas the claim's "only the tokens strictly below the gate"
would sum to `1+2+3+4+5 = 15 ≠ 40`. -/
theorem C1_counterexample :
    batchLevelKdSum nll10 kd10 (List.replicate 10 false) (1/2) = 40 ∧
    batchLevelKdSum_claimed nll10 kd10 (1/2) = 15 ∧
    (15 : ℚ) < 40 := by
  have hgate : batchLevelGate nll10 (1/2) = 6 := by
    rw [batchLevelGate, show nll10.length = 10 from rfl,
      kdTokenCount_ten_half]
    norm_num [topkLast, sortDesc, nll10, List.insertionSort,
      List.orderedInsert]
  refine ⟨?_, ?_, by norm_num⟩
  · simp only [batchLevelKdSum]
    rw [hgate, maskFillZero_all_false kd10 10 rfl]
    norm_num [nll10, kd10, List.filter]
  · simp only [batchLevelKdSum_claimed]
    rw [hgate]
    norm_num [nll10, kd10, List.filter]

/-- C1 (amended): in `batch_level` with `kd_rate = 1/2` on a 10-token
batch of distinct non-padding student NLL values, the gate is the value
at rank `ceil(10 · 1/2) = 5` counting from the largest; exactly the 5
tokens with the LOWEST NLL (those strictly below the gate) are excluded
from the KD-loss accumulation, and the summed kd_loss contains exactly
the tokens at or above the gate — the 5 highest-NLL tokens (a token is
at or above the gate iff fewer than 5 tokens have a larger NLL). -/
theorem C1_batch_level_amended (nll kd : List ℚ) (h10 : nll.length = 10)
    (hkd : kd.length = 10) (hnd : nll.Nodup) :
    kdTokenCount nll.length (1/2) = 5 ∧
    nll.countP (fun y => decide (batchLevelGate nll (1/2) ≤ y)) = 5 ∧
    nll.countP (fun y => decide (y < batchLevelGate nll (1/2))) = 5 ∧
    (∀ x ∈ nll, (batchLevelGate nll (1/2) ≤ x ↔
      nll.countP (fun y => decide (x < y)) < 5)) ∧
    batchLevelKdSum nll kd (List.replicate 10 false) (1/2) =
      (((nll.zip kd).filter
        (fun p => decide (batchLevelGate nll (1/2) ≤ p.1))).map
        Prod.snd).sum := by
  have hk : kdTokenCount nll.length (1/2) = 5 := by
    rw [h10]; exact kdTokenCount_ten_half
  have hgate : batchLevelGate nll (1/2) = topkLast nll 5 := by
    rw [batchLevelGate, hk]
  refine ⟨hk, ?_, ?_, ?_, ?_⟩
  · rw [hgate]
    exact countP_ge_gate nll hnd 5 (by norm_num) (by omega)
  · rw [hgate, countP_lt_gate nll hnd 5 (by norm_num) (by omega), h10]
  · intro x hx
    rw [hgate]
    exact ge_gate_iff_rank_lt nll hnd 5 (by norm_num) (by omega) x hx
  · have hfil : ∀ p ∈ nll.zip kd,
        (!decide (p.1 < batchLevelGate nll (1/2))) =
          decide (batchLevelGate nll (1/2) ≤ p.1) := by
      intro p _
      by_cases hc : p.1 < batchLevelGate nll (1/2)
      · rw [decide_eq_true hc, decide_eq_false (not_le.mpr hc)]
        rfl
      · rw [decide_eq_false hc, decide_eq_true (not_lt.mp hc)]
        rfl
    simp only [batchLevelKdSum]
    rw [maskFillZero_all_false kd 10 hkd, List.filter_congr hfil]

/-- C1 witness: the amended theorem at the concrete distinct batch
1..10. -/
theorem C1_batch_level_witness :
    nll10.length = 10 ∧ nll10.Nodup ∧
    nll10.countP (fun y => decide (batchLevelGate nll10 (1/2) ≤ y)) = 5 :=
  ⟨rfl, by decide,
    (C1_batch_level_amended nll10 kd10 rfl rfl (by decide)).2.1⟩

/-! ## `global_multi_level` (lines 190-195, 402-435) -/

/-- Model of `torch.max(mask, dim=1)[1]` on one Boolean row: the index of the
first maximal entry — the first `true`, or 0 when the row has no
`true`. -/
def argmaxMask : List Bool → ℕ
  | [] => 0
  | b :: rest => if b = true then 0
      else (if rest.any id = true then argmaxMask rest + 1 else 0)

/-- Model of `get_lang_ids` (lines 190-195): per sentence (row of `src_tokens`),
`torch.max` over the non-padding mask `tokens.ne(padding_idx)` returns
the FIRST non-padding column (or column 0 when the row is all padding),
and the token there is gathered as the sentence's language id. -/
def get_lang_ids (padding_idx : ℤ) (tokens : List (List ℤ)) : List ℤ :=
  tokens.map (fun row =>
    let mask := row.map (fun t => decide (t ≠ padding_idx))
    row.getD (argmaxMask mask) 0)

/-- One step of `indices.setdefault(val, []).append(idx)` (line 414). -/
def addLangIdx (acc : List (ℤ × List ℕ)) (val : ℤ) (idx : ℕ) :
    List (ℤ × List ℕ) :=
  if acc.any (fun p => decide (p.1 = val)) then
    acc.map (fun p => if p.1 = val then (p.1, p.2 ++ [idx]) else p)
  else acc ++ [(val, [idx])]

/-- The per-language sentence-index map (lines 411-414).  Python `dict`
iteration order is insertion order, so `indices` is an association list
in first-appearance order of the language ids. -/
def buildLangIndices (lang_ids : List ℤ) : List (ℤ × List ℕ) :=
  lang_ids.enum.foldl (fun acc p => addLangIdx acc p.2 p.1) []

/-- Model of `nll_loss.view(B, -1)` followed by
`index_select(0, idxs).view(-1)` (line 417): the concatenation of the
selected sentence rows, in index order. -/
def selectRows (nll2d : List (List ℚ)) (idxs : List ℕ) : List ℚ :=
  (idxs.map (fun i => nll2d.getD i [])).flatten

/-- The `global_multi_level` branch (lines 402-435) with
`use_adaptive_kd_rates = False`, so `get_lang_kd_rates` (line 187)
returns the fixed `kd_rate` for every language.  Faithful to the
source, including two artifacts of the second loop (lines 421-431):
the mask is built from the loop variable `nll_loss_lang` LEFT OVER from
the queue-pushing loop of lines 416-418 (hence the LAST language's
values, whatever language is being gated), and `kd_loss.gather(0,
KD_indices)` reads the flat pad-masked `kd_flat` tensor at positions
local to that leftover tensor (`getD _ 0`; in torch an out-of-range
index is a runtime error — the evaluation below stays in range).
Returns `(total_kd_loss, updated queues)`. -/
def globalMultiLevelKdTotal (kd_queue_size : ℕ) (padding_idx : ℤ)
    (kd_rate : ℚ) (Q : ℤ → List ℚ) (src_tokens : List (List ℤ))
    (nll2d : List (List ℚ)) (kd_flat : List ℚ) : ℚ × (ℤ → List ℚ) :=
  let indices := buildLangIndices (get_lang_ids padding_idx src_tokens)
  let Q' := indices.foldl
    (fun q kv => push_to_lang_FIFO_queue kd_queue_size q kv.1
      (selectRows nll2d kv.2)) Q
  let nll_loss_lang := match indices.getLast? with
    | some kv => selectRows nll2d kv.2
    | none => []
  let total := indices.foldl (fun acc kv =>
    let queue := Q' kv.1
    let loss_gate := topkLast queue (kdTokenCount queue.length kd_rate)
    let KD_indices := ((nll_loss_lang.enum.filter
      (fun p => decide (loss_gate ≤ p.2))).map Prod.fst)
    acc + (KD_indices.map (fun i => kd_flat.getD i 0)).sum) 0
  (total, Q')

/-- Modelled from the spec (§4.3 `global_multi_level` — the claim's
statement): "gate and select per language, accumulate total KD loss
across languages" — for every language id in the batch the gate comes
from THAT language's own queue (after the batch push), and the
accumulated total sums the per-token kd values of THAT language's own
tokens whose student NLL is at or above that gate, read at their global
flattened positions (`sentence · T + column`). -/
def globalMultiLevelKdTotal_specModel (kd_queue_size : ℕ)
    (padding_idx : ℤ) (kd_rate : ℚ) (Q : ℤ → List ℚ)
    (src_tokens : List (List ℤ)) (nll2d : List (List ℚ))
    (kd_flat : List ℚ) : ℚ :=
  let T := (nll2d.headD []).length
  let indices := buildLangIndices (get_lang_ids padding_idx src_tokens)
  let Q' := indices.foldl
    (fun q kv => push_to_lang_FIFO_queue kd_queue_size q kv.1
      (selectRows nll2d kv.2)) Q
  indices.foldl (fun acc kv =>
    let queue := Q' kv.1
    let loss_gate := topkLast queue (kdTokenCount queue.length kd_rate)
    acc + (kv.2.map (fun s =>
      ((((nll2d.getD s []).enum.filter
        (fun p => decide (loss_gate ≤ p.2))).map
        (fun p => kd_flat.getD (s * T + p.1) 0))).sum)).sum) 0

lemma kdTokenCount_two_half : kdTokenCount 2 (1/2) = 1 := by
  have h1 : ⌈((2 : ℕ) : ℚ) * (1/2)⌉ = 1 := by norm_num
  rw [kdTokenCount, h1]
  rfl

/-- C2 (code_bug evaluation): a two-sentence batch, one sentence per
language (ids 100 and 200, padding id 1), per-sentence NLL rows
`[1,2]` and `[3,4]`, flat kd values `[10,20,30,40]`, fixed
`kd_rate = 1/2`, empty queues of capacity 20000.  Per-language gating as
the claim states it selects token 1 of sentence 0 (kd 20) and token 1
of sentence 1 (kd 40), total 60; the code instead masks both languages
against the LAST language's NLL values `[3,4]` and gathers at local
positions of that tensor, totalling `(10+20) + 20 = 50 ≠ 60`. -/
theorem C2_global_multi_level_eval :
    (globalMultiLevelKdTotal 20000 1 (1/2) (fun _ => [])
      [[100, 7], [200, 8]] [[1, 2], [3, 4]] [10, 20, 30, 40]).1 = 50 ∧
    globalMultiLevelKdTotal_specModel 20000 1 (1/2) (fun _ => [])
      [[100, 7], [200, 8]] [[1, 2], [3, 4]] [10, 20, 30, 40] = 60 ∧
    (50 : ℚ) < 60 := by
  refine ⟨?_, ?_, by norm_num⟩
  · norm_num [globalMultiLevelKdTotal, buildLangIndices, get_lang_ids,
      argmaxMask, addLangIdx, selectRows, push_to_lang_FIFO_queue,
      push_to_FIFO_queue, kdTokenCount_two_half, topkLast, sortDesc,
      List.insertionSort, List.orderedInsert, List.enum, List.enumFrom,
      List.filter]
  · norm_num [globalMultiLevelKdTotal_specModel, buildLangIndices,
      get_lang_ids, argmaxMask, addLangIdx, selectRows,
      push_to_lang_FIFO_queue, push_to_FIFO_queue, kdTokenCount_two_half,
      topkLast, sortDesc, List.insertionSort, List.orderedInsert,
      List.enum, List.enumFrom, List.filter]

/-! ## Representation distillation (lines 445-461, 463-571, 580-605) -/

/-- The seven representation loss-type modes of the criterion. -/
inductive LossType where
  | mse
  | mse_uncertainty
  | regression
  | kld
  | kld_uncertainty
  | decoder
  | minilm
deriving DecidableEq

/-- The four per-term enable flags read by `compute_loss`. -/
structure KdFlags where
  value_kd : Bool
  decoder_kd : Bool
  self_kd : Bool
  cross_kd : Bool

/-- The raw tensor-library reductions the branches multiply by their
weights — opaque inputs (external `F.mse_loss` / `F.kl_div` calls on
the attention/value/regression maps); `x` is
`value_relation.shape[2]`. -/
structure RepRaw where
  attnMse : ℚ
  attnKld : ℚ
  attnKldMean : ℚ
  selfMse : ℚ
  crossMse : ℚ
  selfKld : ℚ
  crossKld : ℚ
  valueKld : ℚ
  valueKldMean : ℚ
  regMse : ℚ
  x : ℕ

/-- The five optional representation terms a branch may assign:
`attn_loss`, `decoder_self_attn_loss`, `decoder_cross_attn_loss`,
`value_relation_loss`, `regression_loss` (initialised to `None` at
lines 439-444). -/
structure RepTerms where
  attn : Option ℚ
  dSelf : Option ℚ
  dCross : Option ℚ
  value : Option ℚ
  reg : Option ℚ

/-- The decoder self/cross MSE pair (lines 453-461, repeated at 468-476
and 551-558): both flags halve each term; a single flag keeps the full
weight. -/
def decoderMsePair (fl : KdFlags) (e : ℕ) (rambda decay : ℚ)
    (r : RepRaw) : Option ℚ × Option ℚ :=
  if fl.decoder_kd = true then
    if fl.self_kd = true ∧ fl.cross_kd = true then
      (some (r.selfMse * rambda * decay ^ (e - 1) / 2),
       some (r.crossMse * rambda * decay ^ (e - 1) / 2))
    else if fl.self_kd = true then
      (some (r.selfMse * rambda * decay ^ (e - 1)), none)
    else if fl.cross_kd = true then
      (none, some (r.crossMse * rambda * decay ^ (e - 1)))
    else (none, none)
  else (none, none)

/-- The decoder self/cross KL pair (lines 509-516, 539-546). -/
def decoderKldPair (fl : KdFlags) (e : ℕ) (rambda decay : ℚ)
    (r : RepRaw) : Option ℚ × Option ℚ :=
  if fl.decoder_kd = true then
    if fl.self_kd = true ∧ fl.cross_kd = true then
      (some (r.selfKld * decay ^ (e - 1) / 2 * rambda),
       some (r.crossKld * decay ^ (e - 1) / 2 * rambda))
    else if fl.self_kd = true then
      (some (r.selfKld * decay ^ (e - 1) * rambda), none)
    else if fl.cross_kd = true then
      (none, some (r.crossKld * decay ^ (e - 1) * rambda))
    else (none, none)
  else (none, none)

/-- The value-relation term (lines 450-452, 465-467, 499-501):
`... * rambda * decay^(epoch-1) / (x * 4)`. -/
def valueTerm (fl : KdFlags) (e : ℕ) (rambda decay : ℚ) (r : RepRaw) :
    Option ℚ :=
  if fl.value_kd = true then
    some (r.valueKld * rambda * decay ^ (e - 1) / ((r.x : ℚ) * 4))
  else none

/-- Branch bodies for `1 ≤ epoch ≤ 100` with the attention artifacts
present (lines 447-571).  In the `regression` branch with `decoder_kd`
set (line 503) and in the `minilm` branch unconditionally (line 564)
the source reads the never-assigned local `decoder_attn`, raising an
`UnboundLocalError` (modelled `PyErr.nameError`) before any further
term is computed.  The two `*_uncertainty` modes additionally return
early from `compute_loss` (lines 495, 535) after re-weighting the
combined `rep_loss` by the per-batch confidence weight; the terms they
ASSIGN are the ones recorded here. -/
def repTerms (lt : LossType) (fl : KdFlags) (e : ℕ) (rambda decay : ℚ)
    (r : RepRaw) : Except PyErr RepTerms :=
  match lt with
  | .mse => .ok ⟨some (r.attnMse * rambda * decay ^ (e - 1)),
      (decoderMsePair fl e rambda decay r).1,
      (decoderMsePair fl e rambda decay r).2,
      valueTerm fl e rambda decay r, none⟩
  | .mse_uncertainty => .ok ⟨some (r.attnMse * rambda * decay ^ (e - 1)),
      (decoderMsePair fl e rambda decay r).1,
      (decoderMsePair fl e rambda decay r).2,
      valueTerm fl e rambda decay r, none⟩
  | .regression =>
      if fl.decoder_kd = true then .error .nameError
      else .ok ⟨none, none, none, valueTerm fl e rambda decay r,
        some (r.regMse * rambda * decay ^ (e - 1) / 50)⟩
  | .kld => .ok ⟨some (r.attnKld * decay ^ (e - 1) * rambda),
      (decoderKldPair fl e rambda decay r).1,
      (decoderKldPair fl e rambda decay r).2, none, none⟩
  | .kld_uncertainty => .ok ⟨some (r.attnKld * decay ^ (e - 1) * rambda),
      (decoderKldPair fl e rambda decay r).1,
      (decoderKldPair fl e rambda decay r).2, none, none⟩
  | .decoder => .ok ⟨none,
      (decoderMsePair fl e rambda decay r).1,
      (decoderMsePair fl e rambda decay r).2, none, none⟩
  | .minilm => .error .nameError

/-- Model of `if attn_loss: ... loss += attn_loss` (lines 591-605): Python
truthiness adds a term only when it is neither `None` nor zero. -/
def addIfTruthy (loss : ℚ) (t : Option ℚ) : ℚ :=
  match t with
  | none => loss
  | some v => if v = 0 then loss else loss + v

/-- Total representation contribution added to the loss by the epoch
gate (lines 445-446, 580-583, 591-605): `if epoch:` skips everything
for an absent or zero epoch; `epoch ≤ 100` runs the per-mode branch
above and adds its truthy terms; `epoch > 100` computes
`attn_loss = F.kl_div(...) * rambda * 0` and
`value_relation_loss = F.kl_div(...) * rambda * 0` (both zero, hence
falsy and never added). -/
def repContribution (lt : LossType) (fl : KdFlags) (epoch : Option ℕ)
    (rambda decay : ℚ) (r : RepRaw) : Except PyErr ℚ :=
  match epoch with
  | none => .ok 0
  | some e =>
      if e = 0 then .ok 0
      else if e ≤ 100 then
        (repTerms lt fl e rambda decay r).map (fun ts =>
          addIfTruthy (addIfTruthy (addIfTruthy (addIfTruthy
            (addIfTruthy 0 ts.attn) ts.dSelf) ts.dCross) ts.value) ts.reg)
      else
        .ok (addIfTruthy (addIfTruthy 0
          (some (r.attnKldMean * rambda * 0)))
          (some (r.valueKldMean * rambda * 0)))

/-- C6 (code_bug evaluation): in the `minilm` mode at epoch 1 with all
artifacts present and all flags on, the representation-loss branch
fails (`UnboundLocalError` on `decoder_attn`, line 564) before applying
any weight, instead of producing the claim's
`rambda · decay^(epoch-1)`-weighted terms. -/
theorem C6_minilm_eval :
    repContribution .minilm ⟨true, true, true, true⟩ (some 1) 1000000
      (985/1000) ⟨1, 1, 1, 1, 1, 1, 1, 1, 1, 1, 2⟩ =
      .error .nameError := rfl

/-! ## Architecture presets (`src/custom/__init__.py`) -/

/-- The configuration fields the presets of `src/custom/__init__.py`
touch.  `none` models an attribute the caller has not set; a preset
reads each of its fields with `getattr(args, field, default)` and
assigns the result back.  (The final delegation to the host framework's
`base_architecture` is external to this repository and itself only
fills still-unset fields.) -/
structure TransformerArgs where
  link : Option Bool := none
  regressor : Option Bool := none
  encoder_embed_dim : Option ℕ := none
  encoder_ffn_embed_dim : Option ℕ := none
  encoder_layers : Option ℕ := none
  encoder_attention_heads : Option ℕ := none
  decoder_layers : Option ℕ := none
  decoder_attention_heads : Option ℕ := none
  encoder_normalize_before : Option Bool := none
  decoder_embed_dim : Option ℕ := none
  decoder_ffn_embed_dim : Option ℕ := none
deriving DecidableEq

/-- Model of `args.f = getattr(args, "f", d)`: keep a caller-supplied value,
else fill in the preset default. -/
def fillDefault {α : Type} (o : Option α) (d : α) : Option α :=
  some (o.getD d)

/-- Model of `transformer_small_link_8heads` (lines 4-13). -/
def transformer_small_link_8heads (args : TransformerArgs) :
    TransformerArgs :=
  { args with
    link := fillDefault args.link true,
    encoder_embed_dim := fillDefault args.encoder_embed_dim 512,
    encoder_ffn_embed_dim := fillDefault args.encoder_ffn_embed_dim 1024,
    encoder_layers := fillDefault args.encoder_layers 3,
    encoder_attention_heads := fillDefault args.encoder_attention_heads 8,
    decoder_layers := fillDefault args.decoder_layers 6,
    decoder_attention_heads := fillDefault args.decoder_attention_heads 8 }

/-- Model of `transformer_tiny_link_8heads` (lines 15-24). -/
def transformer_tiny_link_8heads (args : TransformerArgs) :
    TransformerArgs :=
  { args with
    link := fillDefault args.link true,
    encoder_embed_dim := fillDefault args.encoder_embed_dim 512,
    encoder_ffn_embed_dim := fillDefault args.encoder_ffn_embed_dim 1024,
    encoder_layers := fillDefault args.encoder_layers 3,
    encoder_attention_heads := fillDefault args.encoder_attention_heads 8,
    decoder_layers := fillDefault args.decoder_layers 3,
    decoder_attention_heads := fillDefault args.decoder_attention_heads 8 }

/-- Model of `transformer_small_link` (lines 26-35). -/
def transformer_small_link (args : TransformerArgs) : TransformerArgs :=
  { args with
    link := fillDefault args.link true,
    encoder_embed_dim := fillDefault args.encoder_embed_dim 512,
    encoder_ffn_embed_dim := fillDefault args.encoder_ffn_embed_dim 1024,
    encoder_layers := fillDefault args.encoder_layers 3,
    encoder_attention_heads := fillDefault args.encoder_attention_heads 4,
    decoder_layers := fillDefault args.decoder_layers 6,
    decoder_attention_heads := fillDefault args.decoder_attention_heads 4 }

/-- The preset registered as `transformer_2layers_8heads` (lines 37-46;
in the source both this and the next function are named
`transformer_2layers`, so the registered architecture names are used
here). -/
def transformer_2layers_8heads (args : TransformerArgs) :
    TransformerArgs :=
  { args with
    link := fillDefault args.link true,
    encoder_embed_dim := fillDefault args.encoder_embed_dim 512,
    encoder_ffn_embed_dim := fillDefault args.encoder_ffn_embed_dim 1024,
    encoder_layers := fillDefault args.encoder_layers 2,
    encoder_attention_heads := fillDefault args.encoder_attention_heads 8,
    decoder_layers := fillDefault args.decoder_layers 2,
    decoder_attention_heads := fillDefault args.decoder_attention_heads 8 }

/-- The preset registered as `transformer_2layers` (lines 48-57). -/
def transformer_2layers (args : TransformerArgs) : TransformerArgs :=
  { args with
    link := fillDefault args.link true,
    encoder_embed_dim := fillDefault args.encoder_embed_dim 512,
    encoder_ffn_embed_dim := fillDefault args.encoder_ffn_embed_dim 1024,
    encoder_layers := fillDefault args.encoder_layers 2,
    encoder_attention_heads := fillDefault args.encoder_attention_heads 4,
    decoder_layers := fillDefault args.decoder_layers 2,
    decoder_attention_heads := fillDefault args.decoder_attention_heads 4 }

/-- Model of `transformer_3layers_regressor` (lines 59-68). -/
def transformer_3layers_regressor (args : TransformerArgs) :
    TransformerArgs :=
  { args with
    regressor := fillDefault args.regressor true,
    encoder_embed_dim := fillDefault args.encoder_embed_dim 512,
    encoder_ffn_embed_dim := fillDefault args.encoder_ffn_embed_dim 1024,
    encoder_layers := fillDefault args.encoder_layers 3,
    encoder_attention_heads := fillDefault args.encoder_attention_heads 4,
    decoder_layers := fillDefault args.decoder_layers 3,
    decoder_attention_heads := fillDefault args.decoder_attention_heads 4 }

/-- Model of `transformer_2layers_regressor` (lines 70-79). -/
def transformer_2layers_regressor (args : TransformerArgs) :
    TransformerArgs :=
  { args with
    regressor := fillDefault args.regressor true,
    encoder_embed_dim := fillDefault args.encoder_embed_dim 512,
    encoder_ffn_embed_dim := fillDefault args.encoder_ffn_embed_dim 1024,
    encoder_layers := fillDefault args.encoder_layers 2,
    encoder_attention_heads := fillDefault args.encoder_attention_heads 4,
    decoder_layers := fillDefault args.decoder_layers 2,
    decoder_attention_heads := fillDefault args.decoder_attention_heads 4 }

/-- Model of `transformer_tiny_link` (lines 81-90). -/
def transformer_tiny_link (args : TransformerArgs) : TransformerArgs :=
  { args with
    link := fillDefault args.link true,
    encoder_embed_dim := fillDefault args.encoder_embed_dim 512,
    encoder_ffn_embed_dim := fillDefault args.encoder_ffn_embed_dim 1024,
    encoder_layers := fillDefault args.encoder_layers 3,
    encoder_attention_heads := fillDefault args.encoder_attention_heads 4,
    decoder_layers := fillDefault args.decoder_layers 3,
    decoder_attention_heads := fillDefault args.decoder_attention_heads 4 }

/-- Model of `transformer_tiny_nolink` (lines 92-101). -/
def transformer_tiny_nolink (args : TransformerArgs) : TransformerArgs :=
  { args with
    link := fillDefault args.link false,
    encoder_embed_dim := fillDefault args.encoder_embed_dim 512,
    encoder_ffn_embed_dim := fillDefault args.encoder_ffn_embed_dim 1024,
    encoder_layers := fillDefault args.encoder_layers 3,
    encoder_attention_heads := fillDefault args.encoder_attention_heads 4,
    decoder_layers := fillDefault args.decoder_layers 3,
    decoder_attention_heads := fillDefault args.decoder_attention_heads 4 }

/-- Model of `transformer_big`, registered as `transformer_2x` (lines 103-112). -/
def transformer_big (args : TransformerArgs) : TransformerArgs :=
  { args with
    encoder_embed_dim := fillDefault args.encoder_embed_dim 1024,
    encoder_ffn_embed_dim := fillDefault args.encoder_ffn_embed_dim 4096,
    encoder_attention_heads := fillDefault args.encoder_attention_heads 16,
    encoder_normalize_before := fillDefault args.encoder_normalize_before
      false,
    decoder_embed_dim := fillDefault args.decoder_embed_dim 1024,
    decoder_ffn_embed_dim := fillDefault args.decoder_ffn_embed_dim 4096,
    decoder_attention_heads := fillDefault args.decoder_attention_heads 16 }

/-- Model of `transformer_huge`, registered as `transformer_4x` (lines 115-124). -/
def transformer_huge (args : TransformerArgs) : TransformerArgs :=
  { args with
    encoder_embed_dim := fillDefault args.encoder_embed_dim 1536,
    encoder_ffn_embed_dim := fillDefault args.encoder_ffn_embed_dim 4096,
    encoder_attention_heads := fillDefault args.encoder_attention_heads 16,
    encoder_normalize_before := fillDefault args.encoder_normalize_before
      false,
    decoder_embed_dim := fillDefault args.decoder_embed_dim 1536,
    decoder_ffn_embed_dim := fillDefault args.decoder_ffn_embed_dim 4096,
    decoder_attention_heads := fillDefault args.decoder_attention_heads 16 }

/-- Model of `transformer_xlarge`, registered as `transformer_9x`
(lines 127-136). -/
def transformer_xlarge (args : TransformerArgs) : TransformerArgs :=
  { args with
    encoder_embed_dim := fillDefault args.encoder_embed_dim 2048,
    encoder_ffn_embed_dim := fillDefault args.encoder_ffn_embed_dim 8192,
    encoder_attention_heads := fillDefault args.encoder_attention_heads 16,
    encoder_normalize_before := fillDefault args.encoder_normalize_before
      false,
    decoder_embed_dim := fillDefault args.decoder_embed_dim 2048,
    decoder_ffn_embed_dim := fillDefault args.decoder_ffn_embed_dim 8192,
    decoder_attention_heads := fillDefault args.decoder_attention_heads 16 }

/-- A preset leaves a caller-supplied value of the given field
unchanged. -/
def PreservesField {α : Type} (f : TransformerArgs → TransformerArgs)
    (g : TransformerArgs → Option α) : Prop :=
  ∀ (a : TransformerArgs) (v : α), g a = some v → g (f a) = some v

/-- A preset preserves caller-supplied values of every configuration
field. -/
def PreservesAll (f : TransformerArgs → TransformerArgs) : Prop :=
  PreservesField f (fun a => a.link) ∧
  PreservesField f (fun a => a.regressor) ∧
  PreservesField f (fun a => a.encoder_embed_dim) ∧
  PreservesField f (fun a => a.encoder_ffn_embed_dim) ∧
  PreservesField f (fun a => a.encoder_layers) ∧
  PreservesField f (fun a => a.encoder_attention_heads) ∧
  PreservesField f (fun a => a.decoder_layers) ∧
  PreservesField f (fun a => a.decoder_attention_heads) ∧
  PreservesField f (fun a => a.encoder_normalize_before) ∧
  PreservesField f (fun a => a.decoder_embed_dim) ∧
  PreservesField f (fun a => a.decoder_ffn_embed_dim)

/-- C10 (confirmed): every architecture preset applied to an empty
configuration assigns exactly the documented defaults of §4.1's table
(and only the fields it mentions), and every preset leaves every
caller-supplied field value unchanged. -/
theorem C10_presets_defaults_and_preserve :
    (transformer_small_link_8heads {} =
        { link := some true, encoder_embed_dim := some 512,
          encoder_ffn_embed_dim := some 1024, encoder_layers := some 3,
          encoder_attention_heads := some 8, decoder_layers := some 6,
          decoder_attention_heads := some 8 } ∧
      transformer_tiny_link_8heads {} =
        { link := some true, encoder_embed_dim := some 512,
          encoder_ffn_embed_dim := some 1024, encoder_layers := some 3,
          encoder_attention_heads := some 8, decoder_layers := some 3,
          decoder_attention_heads := some 8 } ∧
      transformer_small_link {} =
        { link := some true, encoder_embed_dim := some 512,
          encoder_ffn_embed_dim := some 1024, encoder_layers := some 3,
          encoder_attention_heads := some 4, decoder_layers := some 6,
          decoder_attention_heads := some 4 } ∧
      transformer_2layers_8heads {} =
        { link := some true, encoder_embed_dim := some 512,
          encoder_ffn_embed_dim := some 1024, encoder_layers := some 2,
          encoder_attention_heads := some 8, decoder_layers := some 2,
          decoder_attention_heads := some 8 } ∧
      transformer_2layers {} =
        { link := some true, encoder_embed_dim := some 512,
          encoder_ffn_embed_dim := some 1024, encoder_layers := some 2,
          encoder_attention_heads := some 4, decoder_layers := some 2,
          decoder_attention_heads := some 4 } ∧
      transformer_3layers_regressor {} =
        { regressor := some true, encoder_embed_dim := some 512,
          encoder_ffn_embed_dim := some 1024, encoder_layers := some 3,
          encoder_attention_heads := some 4, decoder_layers := some 3,
          decoder_attention_heads := some 4 } ∧
      transformer_2layers_regressor {} =
        { regressor := some true, encoder_embed_dim := some 512,
          encoder_ffn_embed_dim := some 1024, encoder_layers := some 2,
          encoder_attention_heads := some 4, decoder_layers := some 2,
          decoder_attention_heads := some 4 } ∧
      transformer_tiny_link {} =
        { link := some true, encoder_embed_dim := some 512,
          encoder_ffn_embed_dim := some 1024, encoder_layers := some 3,
          encoder_attention_heads := some 4, decoder_layers := some 3,
          decoder_attention_heads := some 4 } ∧
      transformer_tiny_nolink {} =
        { link := some false, encoder_embed_dim := some 512,
          encoder_ffn_embed_dim := some 1024, encoder_layers := some 3,
          encoder_attention_heads := some 4, decoder_layers := some 3,
          decoder_attention_heads := some 4 } ∧
      transformer_big {} =
        { encoder_embed_dim := some 1024,
          encoder_ffn_embed_dim := some 4096,
          encoder_attention_heads := some 16,
          encoder_normalize_before := some false,
          decoder_embed_dim := some 1024,
          decoder_ffn_embed_dim := some 4096,
          decoder_attention_heads := some 16 } ∧
      transformer_huge {} =
        { encoder_embed_dim := some 1536,
          encoder_ffn_embed_dim := some 4096,
          encoder_attention_heads := some 16,
          encoder_normalize_before := some false,
          decoder_embed_dim := some 1536,
          decoder_ffn_embed_dim := some 4096,
          decoder_attention_heads := some 16 } ∧
      transformer_xlarge {} =
        { encoder_embed_dim := some 2048,
          encoder_ffn_embed_dim := some 8192,
          encoder_attention_heads := some 16,
          encoder_normalize_before := some false,
          decoder_embed_dim := some 2048,
          decoder_ffn_embed_dim := some 8192,
          decoder_attention_heads := some 16 }) ∧
    (PreservesAll transformer_small_link_8heads ∧
      PreservesAll transformer_tiny_link_8heads ∧
      PreservesAll transformer_small_link ∧
      PreservesAll transformer_2layers_8heads ∧
      PreservesAll transformer_2layers ∧
      PreservesAll transformer_3layers_regressor ∧
      PreservesAll transformer_2layers_regressor ∧
      PreservesAll transformer_tiny_link ∧
      PreservesAll transformer_tiny_nolink ∧
      PreservesAll transformer_big ∧
      PreservesAll transformer_huge ∧
      PreservesAll transformer_xlarge) := by
  constructor
  · exact ⟨rfl, rfl, rfl, rfl, rfl, rfl, rfl, rfl, rfl, rfl, rfl, rfl⟩
  · repeat' apply And.intro
    all_goals (
      intro a v h
      simp_all [fillDefault, transformer_small_link_8heads,
        transformer_tiny_link_8heads, transformer_small_link,
        transformer_2layers_8heads, transformer_2layers,
        transformer_3layers_regressor, transformer_2layers_regressor,
        transformer_tiny_link, transformer_tiny_nolink, transformer_big,
        transformer_huge, transformer_xlarge])

/-- C10 witness: a caller-supplied `link := some false` survives the
`small_link_8heads` preset (whose default would be `true`). -/
theorem C10_presets_witness :
    ({ link := some false } : TransformerArgs).link = some false ∧
    (transformer_small_link_8heads
      { link := some false }).link = some false :=
  ⟨rfl, C10_presets_defaults_and_preserve.2.1.1
    { link := some false } false rfl⟩

/-- C7 (confirmed): per token, `label_smoothed_nll_loss` returns
`(1 - ε - ε/(V-1)) · nll + (ε/(V-1)) · smooth_loss` where
`nll = -lprobs[target]` and `smooth_loss = -Σ_vocab lprobs`, both zeroed
at padding positions; and with `ε = 0` the per-token loss list is
exactly the plain negative log-likelihood list. -/
theorem C7_label_smoothed_formula (lprobs : List (List ℚ))
    (target : List ℕ) (epsilon : ℚ) (pad : ℕ) (V : ℕ) (hV : 2 ≤ V)
    (hrows : ∀ row ∈ lprobs, row.length = V) :
    (∀ i, i < (lprobs.zip target).length →
      (label_smoothed_nll_loss lprobs target epsilon
        (some pad)).1.getD i 0 =
        (1 - epsilon - epsilon / ((V : ℚ) - 1)) *
          (if target.getD i 0 = pad then 0
            else -((lprobs.getD i []).getD (target.getD i 0) 0)) +
        (epsilon / ((V : ℚ) - 1)) *
          (if target.getD i 0 = pad then 0
            else -((lprobs.getD i []).sum))) ∧
    (label_smoothed_nll_loss lprobs target 0 (some pad)).1 =
      (label_smoothed_nll_loss lprobs target 0 (some pad)).2 := by
  constructor
  · intro i hi
    have hi1 : i < lprobs.length := by
      rw [List.length_zip] at hi
      exact lt_of_lt_of_le hi (min_le_left _ _)
    have hi2 : i < target.length := by
      rw [List.length_zip] at hi
      exact lt_of_lt_of_le hi (min_le_right _ _)
    have hVv : ((lprobs.headD []).length : ℚ) = (V : ℚ) := by
      cases lprobs with
      | nil => simp at hi1
      | cons r rs =>
          have := hrows r (by simp)
          simp [this]
    simp only [label_smoothed_nll_loss]
    rw [List.getD_eq_getElem _ _ (by simpa using hi),
      List.getElem_map, List.getElem_map, List.getElem_zip,
      List.getD_eq_getElem target 0 hi2,
      List.getD_eq_getElem lprobs [] hi1]
    by_cases hp : target[i] = pad
    · simp [hp]
    · simp only [hp, if_false, hVv]
  · simp only [label_smoothed_nll_loss]
    refine List.map_congr_left ?_
    intro ns _
    simp only [zero_div]
    ring

/-- C7 witness: the formula at a concrete 2-token, 2-vocabulary batch
with `ε = 1/2` (token 0, non-padding). -/
theorem C7_label_smoothed_witness :
    (label_smoothed_nll_loss [[(-1 : ℚ), -2], [-3, -4]] [0, 1] (1/2)
      (some 9)).1.getD 0 0 =
      (1 - 1/2 - (1/2) / ((2 : ℚ) - 1)) *
        (if ([0, 1].getD 0 0 : ℕ) = 9 then 0
          else -((([[(-1 : ℚ), -2], [-3, -4]]).getD 0 []).getD
            ([0, 1].getD 0 0) 0)) +
      ((1/2) / ((2 : ℚ) - 1)) *
        (if ([0, 1].getD 0 0 : ℕ) = 9 then 0
          else -((([[(-1 : ℚ), -2], [-3, -4]]).getD 0 []).sum)) :=
  (C7_label_smoothed_formula [[(-1 : ℚ), -2], [-3, -4]] [0, 1] (1/2) 9 2
    (by norm_num) (by simp)).1 0 (by simp)

/-! ## Entropy-weighted KD helper (`Dynamic_KD.py`, lines 5-20) -/

/-- The per-example instance weight of `dynamic_kd_loss` (lines 7-13)
as a function of one row `p` of the student softmax matrix and the
vocabulary size `V = student_logits.size(1)`: the entropy
`H = -Σ p·log(p + 1e-6)` normalized by its upper bound `log(V)`
(`torch.log(torch.ones_like(...) * V)`). -/
noncomputable def instance_weight (p : List ℝ) (V : ℕ) : ℝ :=
  (-(p.map (fun q => q * Real.log (q + 1/1000000))).sum) / Real.log V

lemma list_sum_map_le (l : List ℝ) (f g : ℝ → ℝ)
    (h : ∀ x ∈ l, f x ≤ g x) : (l.map f).sum ≤ (l.map g).sum := by
  induction l with
  | nil => simp
  | cons a t ih =>
      have ht := ih (fun x hx => h x (by simp [hx]))
      have ha := h a (by simp)
      simp only [List.map_cons, List.sum_cons]
      linarith

lemma list_sum_map_add (l : List ℝ) (f g : ℝ → ℝ) :
    (l.map (fun x => f x + g x)).sum = (l.map f).sum + (l.map g).sum := by
  induction l with
  | nil => simp
  | cons a t ih =>
      simp only [List.map_cons, List.sum_cons, ih]
      ring

lemma list_sum_map_neg (l : List ℝ) (f : ℝ → ℝ) :
    (l.map (fun x => -(f x))).sum = -(l.map f).sum := by
  induction l with
  | nil => simp
  | cons a t ih =>
      simp only [List.map_cons, List.sum_cons, ih]
      ring

lemma list_sum_map_const (l : List ℝ) (c : ℝ) :
    (l.map (fun _ => c)).sum = l.length * c := by
  induction l with
  | nil => simp
  | cons a t ih =>
      simp only [List.map_cons, List.sum_cons, ih, List.length_cons]
      push_cast
      ring

/-- C8 (counterexample): because the code offsets the probabilities by
`1e-6` INSIDE the logarithm, the weight at the one-hot distribution
`(1, 0)` is `-log(1 + 1e-6)/log 2`, strictly NEGATIVE (outside the
claimed `[0, 1]`), and the weight at the uniform distribution
`(1/2, 1/2)` is strictly BELOW the claimed exact value 1. -/
theorem C8_counterexample :
    instance_weight [1, 0] 2 < 0 ∧ instance_weight [1/2, 1/2] 2 < 1 := by
  have hlog2 : 0 < Real.log 2 := Real.log_pos (by norm_num)
  have hcast : ((2 : ℕ) : ℝ) = 2 := by norm_num
  constructor
  · have hsum : ([(1 : ℝ), 0].map
        (fun q => q * Real.log (q + 1/1000000))).sum =
        Real.log (1 + 1/1000000) := by simp
    rw [instance_weight, hsum, hcast]
    have h1 : 0 < Real.log (1 + 1/1000000) := Real.log_pos (by norm_num)
    exact div_neg_of_neg_of_pos (by linarith) hlog2
  · have hsum : ([(1 : ℝ)/2, 1/2].map
        (fun q => q * Real.log (q + 1/1000000))).sum =
        Real.log (1/2 + 1/1000000) := by
      simp only [List.map_cons, List.map_nil, List.sum_cons,
        List.sum_nil]
      ring
    rw [instance_weight, hsum, hcast, div_lt_one hlog2]
    have hlt : Real.log (1/2) < Real.log (1/2 + 1/1000000) :=
      Real.log_lt_log (by norm_num) (by norm_num)
    have hhalf : Real.log ((1:ℝ)/2) = -Real.log 2 := by
      rw [one_div, Real.log_inv]
    linarith

/-- C8 (amended): for every probability vector `p` over a vocabulary of
size `V ≥ 2` (nonnegative entries summing to 1), the instance weight
lies in `[-log(1 + 1e-6)/log V, 1]`; at the uniform distribution it
equals `(log V - log(1 + V·1e-6))/log V`, strictly BELOW 1 (not exactly
1, because of the `1e-6` offset inside the log); at a one-hot
distribution it equals `-log(1 + 1e-6)/log V` — within `1e-6/log V` of
0 (hence "approaching 0"), but strictly negative, so the weight is not
always in `[0, 1]`. -/
theorem C8_instance_weight_amended (V : ℕ) (hV : 2 ≤ V) (p : List ℝ)
    (hlen : p.length = V) (hnn : ∀ x ∈ p, 0 ≤ x) (hsump : p.sum = 1) :
    (instance_weight p V ≤ 1 ∧
      -(Real.log (1 + 1/1000000)) / Real.log V ≤ instance_weight p V) ∧
    (instance_weight (List.replicate V ((V : ℝ)⁻¹)) V =
        (Real.log V - Real.log (1 + V * (1/1000000))) / Real.log V ∧
      instance_weight (List.replicate V ((V : ℝ)⁻¹)) V < 1) ∧
    (instance_weight ((1 : ℝ) :: List.replicate (V - 1) 0) V =
        -(Real.log (1 + 1/1000000)) / Real.log V ∧
      instance_weight ((1 : ℝ) :: List.replicate (V - 1) 0) V < 0 ∧
      -(1/1000000) / Real.log V ≤
        instance_weight ((1 : ℝ) :: List.replicate (V - 1) 0) V) := by
  have hV1 : (1 : ℝ) < (V : ℝ) := by exact_mod_cast (by omega : 1 < V)
  have hV0 : (0 : ℝ) < (V : ℝ) := by linarith
  have hVne : ((V : ℝ)) ≠ 0 := ne_of_gt hV0
  have hlogV : 0 < Real.log V := Real.log_pos hV1
  have hlog1e : 0 < Real.log (1 + 1/1000000) := Real.log_pos (by norm_num)
  refine ⟨⟨?_, ?_⟩, ⟨?_, ?_⟩, ?_, ?_, ?_⟩
  · -- weight ≤ 1
    rw [instance_weight, div_le_one hlogV]
    have hstep : ∀ x ∈ p, -(x * Real.log (x + 1/1000000)) ≤
        x * Real.log V + (x / ((V : ℝ) * (x + 1/1000000)) + -x) := by
      intro x hx
      have hx0 : 0 ≤ x := hnn x hx
      have hxe : (0 : ℝ) < x + 1/1000000 := by linarith
      have hpos : 0 < (V : ℝ) * (x + 1/1000000) := by positivity
      have hlog := Real.log_le_sub_one_of_pos
        (show (0 : ℝ) < 1 / ((V : ℝ) * (x + 1/1000000)) by positivity)
      rw [Real.log_div one_ne_zero (ne_of_gt hpos), Real.log_one,
        Real.log_mul hVne (ne_of_gt hxe)] at hlog
      calc -(x * Real.log (x + 1/1000000)) =
            x * (0 - (Real.log V + Real.log (x + 1/1000000))) +
              x * Real.log V := by ring
        _ ≤ x * (1 / ((V : ℝ) * (x + 1/1000000)) - 1) + x * Real.log V :=
            by linarith [mul_le_mul_of_nonneg_left hlog hx0]
        _ = x * Real.log V + (x / ((V : ℝ) * (x + 1/1000000)) + -x) := by
            ring
    have hsum1 := list_sum_map_le p _ _ hstep
    rw [list_sum_map_neg p (fun x => x * Real.log (x + 1/1000000)),
      list_sum_map_add p (fun x => x * Real.log V)
        (fun x => x / ((V : ℝ) * (x + 1/1000000)) + -x),
      list_sum_map_add p (fun x => x / ((V : ℝ) * (x + 1/1000000)))
        (fun x => -x),
      List.sum_map_mul_right p (fun b => b) (Real.log V),
      list_sum_map_neg p (fun x => x), List.map_id' p, hsump] at hsum1
    have hSle : (p.map
        (fun x => x / ((V : ℝ) * (x + 1/1000000)))).sum ≤
        (p.map (fun _ => ((V : ℝ))⁻¹)).sum := by
      refine list_sum_map_le _ _ _ ?_
      intro x hx
      have hx0 := hnn x hx
      have hxe : (0 : ℝ) < x + 1/1000000 := by linarith
      rw [div_le_iff (by positivity)]
      have hid : (V : ℝ)⁻¹ * ((V : ℝ) * (x + 1/1000000)) =
          x + 1/1000000 := by field_simp
      rw [hid]
      linarith
    rw [list_sum_map_const p ((V : ℝ))⁻¹, hlen,
      mul_inv_cancel₀ hVne] at hSle
    linarith
  · -- lower bound on the weight
    rw [instance_weight]
    gcongr
    have hle : (p.map (fun q => q * Real.log (q + 1/1000000))).sum ≤
        (p.map (fun q => q * Real.log (1 + 1/1000000))).sum := by
      refine list_sum_map_le _ _ _ ?_
      intro x hx
      have hx0 := hnn x hx
      have hx1 : x ≤ 1 := by
        have := List.single_le_sum hnn x hx
        rwa [hsump] at this
      exact mul_le_mul_of_nonneg_left
        (Real.log_le_log (by linarith) (by linarith)) hx0
    rw [List.sum_map_mul_right p (fun b => b) (Real.log (1 + 1/1000000)),
      List.map_id' p, hsump, one_mul] at hle
    linarith
  · -- exact value at the uniform distribution
    rw [instance_weight, List.map_replicate, List.sum_replicate,
      nsmul_eq_mul]
    have hc : (V : ℝ) * ((V : ℝ)⁻¹ * Real.log ((V : ℝ)⁻¹ + 1/1000000)) =
        Real.log ((V : ℝ)⁻¹ + 1/1000000) := by
      field_simp
    rw [hc]
    have harg : (V : ℝ)⁻¹ + 1/1000000 = (1 + V * (1/1000000)) / V := by
      rw [eq_div_iff hVne]
      field_simp
      ring
    rw [harg, Real.log_div (by positivity) hVne]
    ring
  · -- the uniform value is strictly below 1
    rw [instance_weight, List.map_replicate, List.sum_replicate,
      nsmul_eq_mul]
    have hc : (V : ℝ) * ((V : ℝ)⁻¹ * Real.log ((V : ℝ)⁻¹ + 1/1000000)) =
        Real.log ((V : ℝ)⁻¹ + 1/1000000) := by
      field_simp
    rw [hc, div_lt_one hlogV]
    have hlt : Real.log ((V : ℝ)⁻¹) < Real.log ((V : ℝ)⁻¹ + 1/1000000) :=
      Real.log_lt_log (by positivity) (by norm_num)
    have hinv : Real.log ((V : ℝ)⁻¹) = -Real.log V := Real.log_inv _
    linarith
  · -- exact value at the one-hot distribution
    rw [instance_weight]
    simp only [List.map_cons, List.sum_cons, List.map_replicate,
      List.sum_replicate, zero_mul, smul_zero, one_mul, add_zero,
      zero_add]
  · -- the one-hot value is strictly negative
    rw [instance_weight]
    simp only [List.map_cons, List.sum_cons, List.map_replicate,
      List.sum_replicate, zero_mul, smul_zero, one_mul, add_zero,
      zero_add]
    exact div_neg_of_neg_of_pos (by linarith) hlogV
  · -- ... but within 1e-6/log V of 0
    rw [instance_weight]
    simp only [List.map_cons, List.sum_cons, List.map_replicate,
      List.sum_replicate, zero_mul, smul_zero, one_mul, add_zero,
      zero_add]
    gcongr
    have := Real.log_le_sub_one_of_pos
      (show (0 : ℝ) < 1 + 1/1000000 by norm_num)
    linarith

/-- C8 witness: the amended bounds at `V = 2`, `p = (1/2, 1/2)`. -/
theorem C8_instance_weight_witness :
    (2 ≤ 2 ∧ ([(1 : ℝ)/2, 1/2].length = 2) ∧
      (∀ x ∈ [(1 : ℝ)/2, 1/2], 0 ≤ x) ∧ ([(1 : ℝ)/2, 1/2].sum = 1)) ∧
    instance_weight [(1 : ℝ)/2, 1/2] 2 ≤ 1 :=
  ⟨⟨by norm_num, rfl, by norm_num, by norm_num⟩,
    (C8_instance_weight_amended 2 (by norm_num) [(1 : ℝ)/2, 1/2] rfl
      (by norm_num) (by norm_num)).1.1⟩

/-! ## Adaptive per-language KD rates (lines 181-187) -/

/-- Model of `F.softmax(xs, dim=-1)` on a 1-D tensor of reals. -/
noncomputable def softmaxReal (xs : List ℝ) : List ℝ :=
  xs.map (fun x => Real.exp x / (xs.map Real.exp).sum)

/-- Model of `get_lang_kd_rates` (lines 181-187) in the adaptive branch
(`use_adaptive_kd_rates = True`): `lens` holds the per-language
sentence counts `[len(v) for v in indices.values()]` and the rates are
`F.softmax((1/lens)/T)`. -/
noncomputable def get_lang_kd_rates (lens : List ℕ) (T : ℝ) : List ℝ :=
  softmaxReal (lens.map (fun l : ℕ => (1 / (l : ℝ)) / T))

/-- C9 (confirmed): with adaptive per-language rates and temperature
`T = 1`, a language with strictly fewer sentences receives a strictly
higher KD rate (softmax is strictly monotone and `1/len` strictly
antitone). -/
theorem C9_adaptive_rates_fewer_higher (lens : List ℕ) (i j : ℕ)
    (hi : i < lens.length) (hj : j < lens.length)
    (hipos : 0 < lens.getD i 0) (hlt : lens.getD i 0 < lens.getD j 0) :
    (get_lang_kd_rates lens 1).getD j 0 <
      (get_lang_kd_rates lens 1).getD i 0 := by
  have hleq : (get_lang_kd_rates lens 1).length = lens.length := by
    simp [get_lang_kd_rates, softmaxReal]
  rw [List.getD_eq_getElem _ _ hi] at hipos
  rw [List.getD_eq_getElem _ _ hi, List.getD_eq_getElem _ _ hj] at hlt
  rw [List.getD_eq_getElem _ _ (show j < _ by rw [hleq]; exact hj),
    List.getD_eq_getElem _ _ (show i < _ by rw [hleq]; exact hi)]
  simp only [get_lang_kd_rates, softmaxReal, List.getElem_map]
  have hS : 0 < (((lens.map fun l : ℕ => 1 / (l : ℝ) / 1).map
      Real.exp)).sum := by
    apply List.sum_pos
    · intro x hx
      obtain ⟨y, _, rfl⟩ := List.mem_map.mp hx
      exact Real.exp_pos y
    · have : 0 < ((lens.map fun l : ℕ => 1 / (l : ℝ) / 1).map
          Real.exp).length := by
        simpa using lt_of_le_of_lt (Nat.zero_le i) hi
      exact List.ne_nil_of_length_pos this
  refine (div_lt_div_iff_of_pos_right hS).mpr ?_
  rw [Real.exp_lt_exp]
  simp only [div_one]
  exact one_div_lt_one_div_of_lt (by exact_mod_cast hipos)
    (by exact_mod_cast hlt)

/-- C9 witness: sentence counts `[1, 2]` — language 0 (fewer sentences)
gets the strictly higher rate. -/
theorem C9_adaptive_rates_witness :
    (0 < [1, 2].getD 0 0 ∧ [1, 2].getD 0 0 < [1, 2].getD 1 0) ∧
    (get_lang_kd_rates [1, 2] 1).getD 1 0 <
      (get_lang_kd_rates [1, 2] 1).getD 0 0 :=
  ⟨⟨by norm_num, by norm_num⟩,
    C9_adaptive_rates_fewer_higher [1, 2] 0 1 (by norm_num) (by norm_num)
      (by norm_num) (by norm_num)⟩
